import Mathlib

/-!
Body parts: legacy token tables, side enumeration, record load and checks.

A shallow embedding of `src/bodypart.cpp`.  Calls to `debugmsg` are modelled as
values of the type `Diag` collected in a list, in the order the code emits them.
-/

namespace Bodypart

/-! ## Side enumeration -/

/-- Modelled from the spec: the enumeration `side` is declared in `bodypart.h`,
which is not part of the sources at hand; the three values are the ones used by
`opposite_side` and `side_map`. -/
inductive side where
  | LEFT
  | RIGHT
  | BOTH
  deriving DecidableEq, Repr

/-- Source `opposite_side`, lines 10-22. -/
def opposite_side (s : side) : side :=
  match s with
  | side.BOTH => side.BOTH
  | side.LEFT => side.RIGHT
  | side.RIGHT => side.LEFT

/-! ## Legacy tokens and identifiers -/

/-- Modelled from the spec: `enum body_part` is declared in `bodypart.h`, which is
not part of the sources at hand.  A token is an integer value; the twelve body
parts are numbered from zero in the order of the tables below and `num_bp` is
their count. -/
abbrev body_part := Int

def bp_torso : body_part := 0
def bp_head : body_part := 1
def bp_eyes : body_part := 2
def bp_mouth : body_part := 3
def bp_arm_l : body_part := 4
def bp_arm_r : body_part := 5
def bp_hand_l : body_part := 6
def bp_hand_r : body_part := 7
def bp_leg_l : body_part := 8
def bp_leg_r : body_part := 9
def bp_foot_l : body_part := 10
def bp_foot_r : body_part := 11
def num_bp : body_part := 12

/-- A `bodypart_ids` (`string_id<body_part_struct>`) is compared by its string. -/
abbrev bodypart_ids := String

/-- One constructor per `debugmsg` call of the file, with the arguments of its
format string. -/
inductive Diag where
  /-- Message "Invalid body part legacy id %s" -/
  | invalid_legacy_id (legacy_id : String)
  /-- Message "Invalid body part token %d" -/
  | invalid_token (token : body_part)
  /-- Message "Mandatory body part %s was not loaded" -/
  | mandatory_not_loaded (id : bodypart_ids)
  /-- Message "Body part %s has duplicate token %d, mapped to %d" -/
  | duplicate_token (id : bodypart_ids) (token : body_part) (under : bodypart_ids)
  /-- Message "Body part %s has unset main part" -/
  | unset_main (id : bodypart_ids)
  /-- Message "Body part %s has unset opposite part" -/
  | unset_opposite (id : bodypart_ids)
  /-- Message "Body part %s has invalid main part %s." -/
  | invalid_main (id : bodypart_ids) (main_part : bodypart_ids)
  /-- Message "Body part %s has invalid opposite part %s." -/
  | invalid_opposite (id : bodypart_ids) (opposite_part : bodypart_ids)
  deriving DecidableEq, Repr

/-- The static table of `legacy_id_to_enum`, lines 51-65. -/
def legacy_id_to_enum_body_parts : List (String × body_part) :=
  [ ("TORSO", bp_torso),
    ("HEAD", bp_head),
    ("EYES", bp_eyes),
    ("MOUTH", bp_mouth),
    ("ARM_L", bp_arm_l),
    ("ARM_R", bp_arm_r),
    ("HAND_L", bp_hand_l),
    ("HAND_R", bp_hand_r),
    ("LEG_L", bp_leg_l),
    ("LEG_R", bp_leg_r),
    ("FOOT_L", bp_foot_l),
    ("FOOT_R", bp_foot_r),
    ("NUM_BP", num_bp) ]

/-- Source `legacy_id_to_enum`, lines 49-73: the returned token and the messages emitted. -/
def legacy_id_to_enum (legacy_id : String) : body_part × List Diag :=
  match legacy_id_to_enum_body_parts.lookup legacy_id with
  | none => (num_bp, [Diag.invalid_legacy_id legacy_id])
  | some token => (token, [])

/-- Source `bodypart_ids::NULL_ID`, line 76. -/
def NULL_ID : bodypart_ids := "num_bp"

/-- Source `get_body_part_token`, lines 114-117. -/
def get_body_part_token (id : String) : body_part × List Diag :=
  legacy_id_to_enum id

/-- The static table of `convert_bp`, lines 121-135. -/
def convert_bp_body_parts : List (body_part × bodypart_ids) :=
  [ (bp_torso, "torso"),
    (bp_head, "head"),
    (bp_eyes, "eyes"),
    (bp_mouth, "mouth"),
    (bp_arm_l, "arm_l"),
    (bp_arm_r, "arm_r"),
    (bp_hand_l, "hand_l"),
    (bp_hand_r, "hand_r"),
    (bp_leg_l, "leg_l"),
    (bp_leg_r, "leg_r"),
    (bp_foot_l, "foot_l"),
    (bp_foot_r, "foot_r"),
    (num_bp, "num_bp") ]

/-- Source `convert_bp`, lines 119-143.  The error branch dereferences the result of
`body_parts.find( num_bp )` without a test; `none` stands for that lookup
missing. -/
def convert_bp (token : body_part) : Option (bodypart_ids × List Diag) :=
  match convert_bp_body_parts.lookup token with
  | none =>
    match convert_bp_body_parts.lookup num_bp with
    | none => none
    | some id => some (id, [Diag.invalid_token token])
  | some id => some (id, [])

/-- The thirteen legacy tokens, sentinel included. -/
def legacy_tokens : List body_part :=
  [bp_torso, bp_head, bp_eyes, bp_mouth, bp_arm_l, bp_arm_r, bp_hand_l, bp_hand_r,
   bp_leg_l, bp_leg_r, bp_foot_l, bp_foot_r, num_bp]

/-- The thirteen keys of the table of `legacy_id_to_enum`. -/
def legacy_keys : List String :=
  ["TORSO", "HEAD", "EYES", "MOUTH", "ARM_L", "ARM_R", "HAND_L", "HAND_R",
   "LEG_L", "LEG_R", "FOOT_L", "FOOT_R", "NUM_BP"]

/-- Upper-casing of an identifier's string, character by character. -/
def upper (s : String) : String := String.mk (s.data.map Char.toUpper)

/-! ## Records and the factory -/

/-- Modelled from the spec: `body_part_struct` is declared in `bodypart.h`, which
is not part of the sources at hand.  The fields are those read and written by
`load` and `check`; `hit_size` only stores the number read, taken as an integer. -/
structure body_part_struct where
  id : bodypart_ids
  was_loaded : Bool
  name : String
  name_as_heading_singular : String
  name_as_heading_multiple : String
  encumb_text : String
  hit_size : Int
  legacy_id : String
  token : body_part
  main_part : bodypart_ids
  opposite_part : bodypart_ids
  part_side : side
  deriving DecidableEq, Repr

/-- Modelled from the spec: a default-constructed record (`bodypart.h` is not part
of the sources at hand): nothing loaded, token the sentinel `num_bp`. -/
def blank : body_part_struct :=
  { id := "", was_loaded := false, name := "", name_as_heading_singular := "",
    name_as_heading_multiple := "", encumb_text := "", hit_size := 0, legacy_id := "",
    token := num_bp, main_part := "", opposite_part := "", part_side := side.BOTH }

/-- Modelled from the spec: `generic_factory` (`generic_factory.h`) is not part of
the sources at hand.  It owns the stored records, keyed by their `id`, and a
built-in placeholder record returned for an identifier that is not stored. -/
structure generic_factory where
  list : List body_part_struct
  dummy_obj : body_part_struct
  deriving DecidableEq, Repr

/-- The address of a record handed out by the factory: a slot of its store, or
its placeholder.  Two references are the same object exactly when equal. -/
inductive Ref where
  | slot (i : Nat)
  | dummy
  deriving DecidableEq, Repr

/-- Modelled from the spec: the slot of the stored record with the given
identifier, if any (`generic_factory.h` is not part of the sources at hand). -/
def find_id : List body_part_struct → bodypart_ids → Option Nat
  | [], _ => none
  | r :: rs, id => if r.id = id then some 0 else (find_id rs id).map (fun i => i + 1)

/-- Modelled from the spec: `is_valid(id)` is true iff the identifier resolves to
a stored record. -/
def generic_factory.is_valid (F : generic_factory) (id : bodypart_ids) : Bool :=
  (find_id F.list id).isSome

/-- Modelled from the spec: `obj(id)` as a reference: the stored record for a valid
identifier, the placeholder otherwise; nothing is reported. -/
def generic_factory.obj_ref (F : generic_factory) (id : bodypart_ids) : Ref :=
  match find_id F.list id with
  | some i => Ref.slot i
  | none => Ref.dummy

/-- The record a reference points to. -/
def generic_factory.deref (F : generic_factory) : Ref → body_part_struct
  | Ref.slot i => F.list.getD i F.dummy_obj
  | Ref.dummy => F.dummy_obj

/-- Source `bodypart_ids::obj`, lines 90-94. -/
def generic_factory.obj (F : generic_factory) (id : bodypart_ids) : body_part_struct :=
  F.deref (F.obj_ref id)

/-- Modelled from the spec: storing a record replaces the stored record of the
same identifier in place, or appends a new one. -/
def generic_factory.insert (F : generic_factory) (r : body_part_struct) : generic_factory :=
  match find_id F.list r.id with
  | some i => { F with list := F.list.set i r }
  | none => { F with list := F.list ++ [r] }

/-- Source `get_bp`, lines 145-148: a reference to the record under a token. -/
def get_bp (F : generic_factory) (bp : body_part) : Option (Ref × List Diag) :=
  match convert_bp bp with
  | none => none
  | some (id, log) => some (F.obj_ref id, log)

/-! ## Loading -/

/-- Modelled from the spec: a JSON value as far as `load` reads it (`json.h` is not
part of the sources at hand). -/
inductive JsonValue where
  | str (s : String)
  | num (n : Int)
  deriving DecidableEq, Repr

/-- Modelled from the spec: a JSON object, member name to value. -/
abbrev JsonObject := List (String × JsonValue)

/-- The errors thrown while reading a JSON object. -/
inductive JsonError where
  | missing_mandatory (name : String)
  | missing_member (name : String)
  | not_a_string (name : String)
  | invalid_enum (data : String)
  deriving DecidableEq, Repr

/-- Modelled from the spec: `jo.read( name, member )` for a string member: the value
found, or nothing when the member is absent or malformed. -/
def read_string (jo : JsonObject) (name : String) : Option String :=
  match jo.lookup name with
  | some (JsonValue.str s) => some s
  | _ => none

/-- Modelled from the spec: `jo.read( name, member )` for a numeric member. -/
def read_num (jo : JsonObject) (name : String) : Option Int :=
  match jo.lookup name with
  | some (JsonValue.num n) => some n
  | _ => none

/-- Modelled from the spec: `mandatory( jo, was_loaded, name, member )`
(`generic_factory.h` is not part of the sources at hand): a value that was read is
stored; a member that is absent or malformed is an error, unless the record was
already loaded, in which case the member keeps its value. -/
def mandatory {α : Type} (found : Option α) (was_loaded : Bool) (name : String) (member : α) :
    Except JsonError α :=
  match found with
  | some v => Except.ok v
  | none => if was_loaded then Except.ok member else Except.error (JsonError.missing_mandatory name)

/-- Source `io::side_map`, lines 27-32. -/
def side_map : List (String × side) :=
  [ ("left", side.LEFT),
    ("right", side.RIGHT),
    ("both", side.BOTH) ]

/-- Modelled from the spec: `string_to_enum_look_up` is not part of the sources at
hand; the value under the string in the map, and a parse error for a string
that is not a key of the map. -/
def string_to_enum_look_up (map : List (String × side)) (data : String) : Except JsonError side :=
  match map.lookup data with
  | some v => Except.ok v
  | none => Except.error (JsonError.invalid_enum data)

/-- Source `io::string_to_enum<side>`, lines 34-38. -/
def string_to_enum_side (data : String) : Except JsonError side :=
  string_to_enum_look_up side_map data

/-- Modelled from the spec: `jo.get_enum_value<side>( name )` (`json.h` is not part
of the sources at hand): the member must be present and a string, and is parsed
by `string_to_enum<side>`. -/
def get_enum_value_side (jo : JsonObject) (name : String) : Except JsonError side :=
  match jo.lookup name with
  | none => Except.error (JsonError.missing_member name)
  | some (JsonValue.str s) => string_to_enum_side s
  | some (JsonValue.num _) => Except.error (JsonError.not_a_string name)

/-- Source `body_part_struct::load`, lines 155-173, with the reader behind
`jo.get_enum_value<side>` as a parameter: the record after the load and the
messages emitted, or the error thrown. -/
def body_part_struct.load_with (get_enum_value : JsonObject → String → Except JsonError side)
    (self : body_part_struct) (jo : JsonObject) :
    Except JsonError (body_part_struct × List Diag) := do
  let id ← mandatory (read_string jo "id") self.was_loaded "id" self.id
  let name ← mandatory (read_string jo "name") self.was_loaded "name" self.name
  let name_as_heading_singular ← mandatory (read_string jo "heading_singular") self.was_loaded
    "heading_singular" self.name_as_heading_singular
  let name_as_heading_multiple ← mandatory (read_string jo "heading_plural") self.was_loaded
    "heading_plural" self.name_as_heading_multiple
  let encumb_text ← mandatory (read_string jo "encumbrance_text") self.was_loaded
    "encumbrance_text" self.encumb_text
  let hit_size ← mandatory (read_num jo "hit_size") self.was_loaded "hit_size" self.hit_size
  let legacy_id ← mandatory (read_string jo "legacy_id") self.was_loaded "legacy_id" self.legacy_id
  let token := legacy_id_to_enum legacy_id
  let main_part ← mandatory (read_string jo "main_part") self.was_loaded "main_part" self.main_part
  let opposite_part ← mandatory (read_string jo "opposite_part") self.was_loaded
    "opposite_part" self.opposite_part
  let part_side ← get_enum_value jo "side"
  return ({ id := id, was_loaded := self.was_loaded, name := name,
            name_as_heading_singular := name_as_heading_singular,
            name_as_heading_multiple := name_as_heading_multiple,
            encumb_text := encumb_text, hit_size := hit_size, legacy_id := legacy_id,
            token := token.1, main_part := main_part, opposite_part := opposite_part,
            part_side := part_side }, token.2)

/-- Source `body_part_struct::load`, lines 155-173. -/
def body_part_struct.load (self : body_part_struct) (jo : JsonObject) :
    Except JsonError (body_part_struct × List Diag) :=
  self.load_with get_enum_value_side jo

/-- Modelled from the spec: the factory's `load` (`generic_factory.h` is not part of
the sources at hand), called by `body_part_struct::load_bp`, lines 150-153: a
definition whose identifier is already stored is merged into the stored record,
which counts as loaded; otherwise a new record is filled in; the result is
stored.  An error leaves the factory as it was. -/
def generic_factory.load (F : generic_factory) (jo : JsonObject) :
    Except JsonError (generic_factory × List Diag) :=
  match read_string jo "id" with
  | none => Except.error (JsonError.missing_mandatory "id")
  | some id =>
    let base : body_part_struct :=
      match find_id F.list id with
      | some i => { F.list.getD i F.dummy_obj with was_loaded := true }
      | none => blank
    match base.load jo with
    | Except.error e => Except.error e
    | Except.ok (r, log) => Except.ok (F.insert { r with was_loaded := true }, log)

/-- Source `body_part_struct::load_bp`, lines 150-153. -/
def load_bp (F : generic_factory) (jo : JsonObject) : Except JsonError (generic_factory × List Diag) :=
  F.load jo

/-- Modelled from the spec: the factory after `reset()`: no record stored. -/
def empty_factory : generic_factory := { list := [], dummy_obj := blank }

/-! ## Finalize and check -/

/-- Source `body_part_struct::finalize`, lines 185-187: the body is empty. -/
def body_part_struct.finalize (self : body_part_struct) : body_part_struct := self

/-- Modelled from the spec: the factory's `finalize` (`generic_factory.h` is not part
of the sources at hand) finalizes every stored record. -/
def generic_factory.finalize (F : generic_factory) : generic_factory :=
  { F with list := F.list.map body_part_struct.finalize }

/-- Source `body_part_struct::finalize_all`, lines 180-183. -/
def finalize_all (F : generic_factory) : generic_factory := F.finalize

/-- Source `body_part_struct::check`, lines 201-223, run on the record `R` at address
`self`: the messages emitted, in order. -/
def body_part_struct.check (F : generic_factory) (self : Ref) (R : body_part_struct) :
    Option (List Diag) :=
  match get_bp F R.token with
  | none => none
  | some (under_token, log) =>
    some (log
      ++ (if self ≠ under_token then
            [Diag.duplicate_token R.id R.token (F.deref under_token).id] else [])
      ++ (if R.id ≠ NULL_ID ∧ R.main_part = NULL_ID then [Diag.unset_main R.id] else [])
      ++ (if R.id ≠ NULL_ID ∧ R.opposite_part = NULL_ID then [Diag.unset_opposite R.id] else [])
      ++ (if ¬ F.is_valid R.main_part = true then [Diag.invalid_main R.id R.main_part] else [])
      ++ (if ¬ F.is_valid R.opposite_part = true then
            [Diag.invalid_opposite R.id R.opposite_part] else []))

/-- The checks of the records in the slots `i`, `i + 1`, ... in turn. -/
def check_from (F : generic_factory) : Nat → List body_part_struct → Option (List Diag)
  | _, [] => some []
  | i, R :: rest =>
    match body_part_struct.check F (Ref.slot i) R with
    | none => none
    | some log =>
      match check_from F (i + 1) rest with
      | none => none
      | some logs => some (log ++ logs)

/-- Modelled from the spec: the factory's `check` (`generic_factory.h` is not part of
the sources at hand) runs each stored record's own `check()`. -/
def generic_factory.check (F : generic_factory) : Option (List Diag) :=
  check_from F 0 F.list

/-- The loop of `check_consistency`, lines 191-196, over the given values of `i`. -/
def mandatory_pass (F : generic_factory) : List Nat → Option (List Diag)
  | [] => some []
  | i :: rest =>
    match convert_bp (Int.ofNat i) with
    | none => none
    | some (legacy_bp, log) =>
      match mandatory_pass F rest with
      | none => none
      | some logs =>
        some (log ++ (if ¬ F.is_valid legacy_bp = true then
                        [Diag.mandatory_not_loaded legacy_bp] else []) ++ logs)

/-- Source `body_part_struct::check_consistency`, lines 189-199. -/
def check_consistency (F : generic_factory) : Option (List Diag) :=
  match mandatory_pass F (List.range num_bp.toNat) with
  | none => none
  | some log =>
    match F.check with
    | none => none
    | some logs => some (log ++ logs)

/-- Source `mutate_to_main_part`, lines 254-257. -/
def mutate_to_main_part (F : generic_factory) (bp : body_part) : Option (body_part × List Diag) :=
  match get_bp F bp with
  | none => none
  | some (r, log) => some ((F.obj (F.deref r).main_part).token, log)

/-- Source `opposite_body_part`, lines 259-262. -/
def opposite_body_part (F : generic_factory) (bp : body_part) : Option (body_part × List Diag) :=
  match get_bp F bp with
  | none => none
  | some (r, log) => some ((F.obj (F.deref r).opposite_part).token, log)

/-- Source `get_body_part_id`, lines 264-267. -/
def get_body_part_id (F : generic_factory) (bp : body_part) : Option (String × List Diag) :=
  match get_bp F bp with
  | none => none
  | some (r, log) => some ((F.deref r).legacy_id, log)

/-! ## The arm scenario -/

/-- A complete definition of a body part, as a JSON object. -/
def definition (id name legacy_id main_part opposite_part side : String) (hit_size : Int) :
    JsonObject :=
  [ ("id", JsonValue.str id),
    ("name", JsonValue.str name),
    ("heading_singular", JsonValue.str name),
    ("heading_plural", JsonValue.str name),
    ("encumbrance_text", JsonValue.str ""),
    ("hit_size", JsonValue.num hit_size),
    ("legacy_id", JsonValue.str legacy_id),
    ("main_part", JsonValue.str main_part),
    ("opposite_part", JsonValue.str opposite_part),
    ("side", JsonValue.str side) ]

def arm_l_json : JsonObject := definition "arm_l" "left arm" "ARM_L" "arm_l" "arm_r" "left" 10
def arm_r_json : JsonObject := definition "arm_r" "right arm" "ARM_R" "arm_r" "arm_l" "right" 10

/-- Loads the definitions in turn, stopping at the first error. -/
def load_all (F : generic_factory) : List JsonObject → Except JsonError generic_factory
  | [] => Except.ok F
  | jo :: rest =>
    match load_bp F jo with
    | Except.error e => Except.error e
    | Except.ok (G, _) => load_all G rest

def arm_l_record : body_part_struct :=
  { id := "arm_l", was_loaded := true, name := "left arm",
    name_as_heading_singular := "left arm", name_as_heading_multiple := "left arm",
    encumb_text := "", hit_size := 10, legacy_id := "ARM_L", token := bp_arm_l,
    main_part := "arm_l", opposite_part := "arm_r", part_side := side.LEFT }

def arm_r_record : body_part_struct :=
  { id := "arm_r", was_loaded := true, name := "right arm",
    name_as_heading_singular := "right arm", name_as_heading_multiple := "right arm",
    encumb_text := "", hit_size := 10, legacy_id := "ARM_R", token := bp_arm_r,
    main_part := "arm_r", opposite_part := "arm_l", part_side := side.RIGHT }

/-- The registry holding exactly the two arm records. -/
def arm_factory : generic_factory := { list := [arm_l_record, arm_r_record], dummy_obj := blank }

/-- The registry after loading the left arm alone. -/
def lone_arm_factory : generic_factory := { list := [arm_l_record], dummy_obj := blank }

/-- A second definition of "arm_l" that gives a new name and nothing else. -/
def rename_json : JsonObject :=
  [ ("id", JsonValue.str "arm_l"),
    ("name", JsonValue.str "port arm") ]

/-- A second definition of "arm_l" that gives a new name and the side. -/
def rename_side_json : JsonObject :=
  [ ("id", JsonValue.str "arm_l"),
    ("name", JsonValue.str "port arm"),
    ("side", JsonValue.str "left") ]

/-! ## Random selection, reachable registries, further scenarios -/

/-- Source `random_body_part`, lines 248-252.  The record reference returned by
`human_anatomy->random_body_part()`, the anatomy model's random selection, is
the argument `part`. -/
def random_body_part (F : generic_factory) (part : Ref) (main_parts_only : Bool) : body_part :=
  if main_parts_only then (F.obj (F.deref part).main_part).token else (F.deref part).token

/-- The registries reached from the empty one by loading definitions through
`load_bp`; a load that throws stores nothing. -/
inductive Reachable : generic_factory → Prop where
  | empty : Reachable empty_factory
  | load (F G : generic_factory) (jo : JsonObject) (log : List Diag) :
      Reachable F → load_bp F jo = Except.ok (G, log) → Reachable G

/-- The identifiers under the twelve tokens `0 .. num_bp - 1`, in order. -/
def mandatory_ids : List bodypart_ids :=
  ["torso", "head", "eyes", "mouth", "arm_l", "arm_r", "hand_l", "hand_r",
   "leg_l", "leg_r", "foot_l", "foot_r"]

/-- A complete definition whose legacy id is not a key of the table. -/
def bogus_json : JsonObject := definition "tail" "tail" "BOGUS" "tail" "tail" "both" 5

def bogus_record : body_part_struct :=
  { id := "tail", was_loaded := true, name := "tail",
    name_as_heading_singular := "tail", name_as_heading_multiple := "tail",
    encumb_text := "", hit_size := 5, legacy_id := "BOGUS", token := num_bp,
    main_part := "tail", opposite_part := "tail", part_side := side.BOTH }

/-- A complete definition of a body part whose identifier is "num_bp". -/
def null_json : JsonObject := definition "num_bp" "appendix" "NUM_BP" "num_bp" "num_bp" "both" 0

def null_record : body_part_struct :=
  { id := "num_bp", was_loaded := true, name := "appendix",
    name_as_heading_singular := "appendix", name_as_heading_multiple := "appendix",
    encumb_text := "", hit_size := 0, legacy_id := "NUM_BP", token := num_bp,
    main_part := "num_bp", opposite_part := "num_bp", part_side := side.BOTH }

/-- The registry after loading the definition of "num_bp" alone. -/
def null_factory : generic_factory := { list := [null_record], dummy_obj := blank }

/-- A complete definition of "num_bp" whose legacy id is not a key of the table. -/
def null_bogus_json : JsonObject :=
  definition "num_bp" "appendix" "BOGUS" "num_bp" "num_bp" "both" 0

def null_bogus_record : body_part_struct :=
  { id := "num_bp", was_loaded := true, name := "appendix",
    name_as_heading_singular := "appendix", name_as_heading_multiple := "appendix",
    encumb_text := "", hit_size := 0, legacy_id := "BOGUS", token := num_bp,
    main_part := "num_bp", opposite_part := "num_bp", part_side := side.BOTH }

/-- The registry after loading that definition alone. -/
def null_bogus_factory : generic_factory := { list := [null_bogus_record], dummy_obj := blank }

/-! ## Lemmas on the two tables -/

theorem legacy_lookup_none_iff (s : String) :
    legacy_id_to_enum_body_parts.lookup s = none ↔ s ∉ legacy_keys := by
  simp [legacy_id_to_enum_body_parts, legacy_keys, List.lookup_eq_none_iff]

theorem legacy_lookup_mem (s : String) (t : body_part)
    (h : legacy_id_to_enum_body_parts.lookup s = some t) : t ∈ legacy_tokens := by
  simp only [legacy_id_to_enum_body_parts, List.lookup_cons, List.lookup_nil] at h
  repeat' split at h
  all_goals first
    | (cases h; decide)
    | (exact absurd h (by simp))

theorem convert_lookup_none_iff (t : body_part) :
    convert_bp_body_parts.lookup t = none ↔ t ∉ legacy_tokens := by
  simp [convert_bp_body_parts, legacy_tokens, List.lookup_eq_none_iff]

/-! ## Lemmas on `check` -/

theorem convert_bp_some (t : body_part) : ∃ id log, convert_bp t = some (id, log) := by
  have hnull : convert_bp_body_parts.lookup num_bp = some NULL_ID := by decide
  cases hl : convert_bp_body_parts.lookup t with
  | none => exact ⟨NULL_ID, [Diag.invalid_token t], by simp [convert_bp, hl, hnull]⟩
  | some id => exact ⟨id, [], by simp [convert_bp, hl]⟩

theorem convert_bp_log_nil (t : body_part) (ht : t ∈ legacy_tokens) (id : bodypart_ids)
    (log : List Diag) (h : convert_bp t = some (id, log)) : log = [] := by
  cases hl : convert_bp_body_parts.lookup t with
  | none => exact absurd ht ((convert_lookup_none_iff t).mp hl)
  | some id2 =>
    simp only [convert_bp, hl, Option.some.injEq, Prod.mk.injEq] at h
    exact h.2.symm

/-- The five messages of `check`, as a function of the five conditions. -/
theorem five_messages (p1 p2 p3 p4 p5 : Prop) [Decidable p1] [Decidable p2] [Decidable p3]
    [Decidable p4] [Decidable p5] (a b c d e : Diag) :
    ((if p1 then [a] else []) ++ (if p2 then [b] else []) ++ (if p3 then [c] else [])
        ++ (if p4 then [d] else []) ++ (if p5 then [e] else [])).length
      = (if p1 then 1 else 0) + (if p2 then 1 else 0) + (if p3 then 1 else 0)
        + (if p4 then 1 else 0) + (if p5 then 1 else 0) ∧
    ((if p1 then [a] else []) ++ (if p2 then [b] else []) ++ (if p3 then [c] else [])
        ++ (if p4 then [d] else []) ++ (if p5 then [e] else []) = []
      ↔ ¬ p1 ∧ ¬ p2 ∧ ¬ p3 ∧ ¬ p4 ∧ ¬ p5) := by
  by_cases h1 : p1 <;> by_cases h2 : p2 <;> by_cases h3 : p3 <;> by_cases h4 : p4 <;>
    by_cases h5 : p5 <;> simp [h1, h2, h3, h4, h5]

theorem check_eq (F : generic_factory) (self : Ref) (R : body_part_struct) (id : bodypart_ids)
    (log0 : List Diag) (h : convert_bp R.token = some (id, log0)) :
    body_part_struct.check F self R = some (log0
      ++ ((if self ≠ F.obj_ref id then
            [Diag.duplicate_token R.id R.token (F.obj id).id] else [])
      ++ (if R.id ≠ NULL_ID ∧ R.main_part = NULL_ID then [Diag.unset_main R.id] else [])
      ++ (if R.id ≠ NULL_ID ∧ R.opposite_part = NULL_ID then [Diag.unset_opposite R.id] else [])
      ++ (if ¬ F.is_valid R.main_part = true then [Diag.invalid_main R.id R.main_part] else [])
      ++ (if ¬ F.is_valid R.opposite_part = true then
            [Diag.invalid_opposite R.id R.opposite_part] else []))) := by
  simp only [body_part_struct.check, get_bp, h, generic_factory.obj, List.append_assoc]

/-- A silent `check` means that the five conditions hold. -/
theorem check_silent (F : generic_factory) (self : Ref) (R : body_part_struct)
    (h : body_part_struct.check F self R = some []) :
    (∃ id, convert_bp R.token = some (id, []) ∧ F.obj_ref id = self) ∧
    (R.id ≠ NULL_ID → R.main_part ≠ NULL_ID ∧ R.opposite_part ≠ NULL_ID) ∧
    F.is_valid R.main_part = true ∧ F.is_valid R.opposite_part = true := by
  obtain ⟨id, log0, hc⟩ := convert_bp_some R.token
  rw [check_eq F self R id log0 hc] at h
  obtain ⟨h0, h1⟩ := List.append_eq_nil.mp (Option.some.inj h)
  subst h0
  have h5 := (five_messages _ _ _ _ _ _ _ _ _ _).2.mp h1
  obtain ⟨ha, hb, hc2, hd, he⟩ := h5
  refine ⟨⟨id, hc, ?_⟩, ?_, ?_, ?_⟩
  · exact (not_not.mp ha).symm
  · intro hid
    exact ⟨fun hm => hb ⟨hid, hm⟩, fun ho => hc2 ⟨hid, ho⟩⟩
  · exact not_not.mp hd
  · exact not_not.mp he

/-! ## Lemmas on `load` -/

theorem mandatory_loaded {α : Type} (found : Option α) (name : String) (member : α) :
    mandatory found true name member = Except.ok (found.getD member) := by
  cases found <;> rfl

/-- What a completed load says about each member of the record. -/
theorem load_with_ok (g : JsonObject → String → Except JsonError side)
    (self : body_part_struct) (jo : JsonObject) (r : body_part_struct) (log : List Diag)
    (h : self.load_with g jo = Except.ok (r, log)) :
    mandatory (read_string jo "id") self.was_loaded "id" self.id = Except.ok r.id ∧
    mandatory (read_string jo "name") self.was_loaded "name" self.name = Except.ok r.name ∧
    mandatory (read_string jo "heading_singular") self.was_loaded "heading_singular"
      self.name_as_heading_singular = Except.ok r.name_as_heading_singular ∧
    mandatory (read_string jo "heading_plural") self.was_loaded "heading_plural"
      self.name_as_heading_multiple = Except.ok r.name_as_heading_multiple ∧
    mandatory (read_string jo "encumbrance_text") self.was_loaded "encumbrance_text"
      self.encumb_text = Except.ok r.encumb_text ∧
    mandatory (read_num jo "hit_size") self.was_loaded "hit_size" self.hit_size
      = Except.ok r.hit_size ∧
    mandatory (read_string jo "legacy_id") self.was_loaded "legacy_id" self.legacy_id
      = Except.ok r.legacy_id ∧
    mandatory (read_string jo "main_part") self.was_loaded "main_part" self.main_part
      = Except.ok r.main_part ∧
    mandatory (read_string jo "opposite_part") self.was_loaded "opposite_part"
      self.opposite_part = Except.ok r.opposite_part ∧
    g jo "side" = Except.ok r.part_side ∧
    r.token = (legacy_id_to_enum r.legacy_id).1 ∧
    log = (legacy_id_to_enum r.legacy_id).2 ∧
    r.was_loaded = self.was_loaded := by
  unfold body_part_struct.load_with at h
  simp only [bind, Except.bind, pure, Except.pure] at h
  repeat' split at h
  all_goals cases h
  refine ⟨?_, ?_, ?_, ?_, ?_, ?_, ?_, ?_, ?_, ?_, rfl, rfl, rfl⟩ <;> assumption

/-! ## Lemmas on the store -/

theorem find_id_some (l : List body_part_struct) (id : bodypart_ids) (i : Nat)
    (d : body_part_struct) (h : find_id l id = some i) :
    i < l.length ∧ (l.getD i d).id = id := by
  induction l generalizing i with
  | nil => simp [find_id] at h
  | cons r rs ih =>
    simp only [find_id] at h
    split at h
    · cases h
      simpa
    · obtain ⟨j, hj, rfl⟩ := Option.map_eq_some'.mp h
      obtain ⟨h1, h2⟩ := ih j hj
      exact ⟨by simpa using h1, by simpa using h2⟩

theorem find_id_none (l : List body_part_struct) (id : bodypart_ids) :
    find_id l id = none ↔ ∀ r ∈ l, r.id ≠ id := by
  induction l with
  | nil => simp [find_id]
  | cons r rs ih =>
    by_cases hr : r.id = id
    · simp [find_id, hr]
    · simp [find_id, hr, ih]

theorem find_id_append (l : List body_part_struct) (r : body_part_struct) (id : bodypart_ids)
    (h : find_id l id = none) (hr : r.id = id) : find_id (l ++ [r]) id = some l.length := by
  induction l with
  | nil => simp [find_id, hr]
  | cons a as ih =>
    simp only [find_id] at h
    split at h
    · cases h
    · rename_i ha
      have h2 : find_id as id = none := by
        cases hf : find_id as id with
        | none => rfl
        | some j => rw [hf] at h; cases h
      simp [find_id, ha, ih h2]

theorem find_id_set (l : List body_part_struct) (r : body_part_struct) (id : bodypart_ids)
    (i : Nat) (h : find_id l id = some i) (hr : r.id = id) :
    find_id (l.set i r) id = some i := by
  induction l generalizing i with
  | nil => simp [find_id] at h
  | cons a as ih =>
    simp only [find_id] at h
    split at h
    · cases h
      simp [find_id, hr]
    · rename_i ha
      obtain ⟨j, hj, rfl⟩ := Option.map_eq_some'.mp h
      simp [find_id, ha, ih j hj]

theorem getD_of_lt (l : List body_part_struct) (i : Nat) (d : body_part_struct)
    (hi : i < l.length) : l.getD i d = l.get ⟨i, hi⟩ := by
  induction l generalizing i with
  | nil => cases hi
  | cons a as ih =>
    cases i with
    | zero => rfl
    | succ j => simpa using ih j (Nat.lt_of_succ_lt_succ hi)

theorem getD_set_self (l : List body_part_struct) (i : Nat) (r d : body_part_struct)
    (hi : i < l.length) : (l.set i r).getD i d = r := by
  induction l generalizing i with
  | nil => cases hi
  | cons a as ih =>
    cases i with
    | zero => rfl
    | succ j => simpa using ih j (Nat.lt_of_succ_lt_succ hi)

theorem getD_append_self (l : List body_part_struct) (r d : body_part_struct) :
    (l ++ [r]).getD l.length d = r := by
  induction l with
  | nil => rfl
  | cons a as ih => simp

/-- A stored record is found under its identifier. -/
theorem insert_obj (F : generic_factory) (r : body_part_struct) :
    (F.insert r).is_valid r.id = true ∧ (F.insert r).obj r.id = r := by
  cases hf : find_id F.list r.id with
  | none =>
    have h := find_id_append F.list r r.id hf rfl
    simp [generic_factory.insert, hf, generic_factory.is_valid, generic_factory.obj,
      generic_factory.obj_ref, generic_factory.deref, h, getD_append_self]
  | some i =>
    have h := find_id_set F.list r r.id i hf rfl
    have hi := (find_id_some F.list r.id i r hf).1
    have h3 := getD_set_self F.list i r F.dummy_obj hi
    simp only [List.getD_eq_getElem?_getD] at h3
    simp [generic_factory.insert, hf, generic_factory.is_valid, generic_factory.obj,
      generic_factory.obj_ref, generic_factory.deref, h, h3]

theorem mem_insert (F : generic_factory) (x r : body_part_struct)
    (h : r ∈ (F.insert x).list) : r = x ∨ r ∈ F.list := by
  unfold generic_factory.insert at h
  split at h
  · exact (List.mem_or_eq_of_mem_set h).symm
  · rcases List.mem_append.mp h with h1 | h1
    · exact Or.inr h1
    · exact Or.inl (by simpa using h1)

/-- What a completed load of the factory stores. -/
theorem factory_load_ok (F G : generic_factory) (jo : JsonObject) (log : List Diag)
    (h : F.load jo = Except.ok (G, log)) :
    ∃ (base r : body_part_struct), base.load jo = Except.ok (r, log) ∧
      read_string jo "id" = some r.id ∧ G = F.insert { r with was_loaded := true } := by
  cases hid : read_string jo "id" with
  | none => simp [generic_factory.load, hid] at h
  | some id =>
    simp only [generic_factory.load, hid] at h
    split at h
    · cases h
    · rename_i r log2 hl
      cases h
      refine ⟨_, r, hl, ?_, rfl⟩
      have h1 := (load_with_ok _ _ _ _ _ hl).1
      rw [hid] at h1
      simp only [mandatory] at h1
      rw [Except.ok.inj h1]

/-- In a reachable registry every stored record has the token of its legacy id. -/
theorem reachable_token (F : generic_factory) (h : Reachable F) :
    ∀ r ∈ F.list, r.token = (legacy_id_to_enum r.legacy_id).1 := by
  induction h with
  | empty => intro r hr; cases hr
  | load F G jo log _ hl ih =>
    obtain ⟨base, r0, h0, -, rfl⟩ := factory_load_ok F G jo log hl
    intro r hr
    rcases mem_insert F _ r hr with h1 | h1
    · subst h1
      exact (load_with_ok _ _ _ _ _ h0).2.2.2.2.2.2.2.2.2.2.1
    · exact ih r h1

theorem obj_mem (F : generic_factory) (id : bodypart_ids) (h : F.is_valid id = true) :
    F.obj id ∈ F.list ∧ (F.obj id).id = id := by
  cases hf : find_id F.list id with
  | none => simp [generic_factory.is_valid, hf] at h
  | some i =>
    obtain ⟨hi, hid⟩ := find_id_some F.list id i F.dummy_obj hf
    have he : F.obj id = F.list.get ⟨i, hi⟩ := by
      simp only [generic_factory.obj, generic_factory.obj_ref, hf, generic_factory.deref]
      exact getD_of_lt F.list i F.dummy_obj hi
    rw [getD_of_lt F.list i F.dummy_obj hi] at hid
    rw [he]
    exact ⟨List.get_mem _ _ _, hid⟩

/-! ## Lemmas on silent checks and on the passes of `check_consistency` -/

theorem obj_ref_slot (F : generic_factory) (id : bodypart_ids) (i : Nat)
    (h : F.obj_ref id = Ref.slot i) : find_id F.list id = some i := by
  unfold generic_factory.obj_ref at h
  cases hf : find_id F.list id with
  | none => rw [hf] at h; cases h
  | some j => rw [hf] at h; cases h; rfl

/-- A stored record with a silent check sits in the slot found under its own
identifier, which is the identifier of its token. -/
theorem silent_slot (F : generic_factory) (i : Nat) (hi : i < F.list.length)
    (h : body_part_struct.check F (Ref.slot i) (F.list.get ⟨i, hi⟩) = some []) :
    convert_bp (F.list.get ⟨i, hi⟩).token = some ((F.list.get ⟨i, hi⟩).id, []) ∧
    find_id F.list (F.list.get ⟨i, hi⟩).id = some i := by
  obtain ⟨⟨id, hc, hr⟩, -⟩ := check_silent F _ _ h
  have hf := obj_ref_slot F id i hr
  have hid := (find_id_some F.list id i F.dummy_obj hf).2
  rw [getD_of_lt _ _ _ hi] at hid
  rw [hid]
  exact ⟨hc, hf⟩

theorem convert_bp_silent_mem (t : body_part) (id : bodypart_ids)
    (h : convert_bp t = some (id, [])) :
    t ∈ legacy_tokens ∧ id ∈ convert_bp_body_parts.map Prod.snd := by
  have ht : t ∈ legacy_tokens := by
    by_contra hn
    have hnull : convert_bp_body_parts.lookup num_bp = some NULL_ID := by decide
    simp [convert_bp, (convert_lookup_none_iff t).mpr hn, hnull] at h
  have hall : ∀ T ∈ legacy_tokens,
      ∃ k ∈ convert_bp_body_parts.map Prod.snd, convert_bp T = some (k, []) := by decide
  obtain ⟨k, hk, hck⟩ := hall t ht
  rw [h] at hck
  simp only [Option.some.injEq, Prod.mk.injEq, and_true] at hck
  exact ⟨ht, hck ▸ hk⟩

theorem convert_bp_inj_legacy :
    ∀ T1 ∈ legacy_tokens, ∀ T2 ∈ legacy_tokens, convert_bp T1 = convert_bp T2 → T1 = T2 := by
  decide

/-- When every stored record has a silent check, the record under a legacy token
whose identifier is valid carries that token. -/
theorem silent_lookup (F : generic_factory)
    (h : ∀ i (hi : i < F.list.length),
      body_part_struct.check F (Ref.slot i) (F.list.get ⟨i, hi⟩) = some [])
    (T : body_part) (hT : T ∈ legacy_tokens) (id : bodypart_ids)
    (hc : convert_bp T = some (id, [])) (hv : F.is_valid id = true) :
    ∃ j, ∃ hj : j < F.list.length,
      get_bp F T = some (Ref.slot j, []) ∧
      F.deref (Ref.slot j) = F.list.get ⟨j, hj⟩ ∧
      (F.list.get ⟨j, hj⟩).token = T := by
  cases hf : find_id F.list id with
  | none => simp [generic_factory.is_valid, hf] at hv
  | some j =>
    obtain ⟨hj, hid⟩ := find_id_some F.list id j F.dummy_obj hf
    rw [getD_of_lt _ _ _ hj] at hid
    have hs := (silent_slot F j hj (h j hj)).1
    rw [hid, ← hc] at hs
    have hmem := (convert_bp_silent_mem _ _ ((silent_slot F j hj (h j hj)).1)).1
    refine ⟨j, hj, ?_, ?_, convert_bp_inj_legacy _ hmem _ hT hs⟩
    · simp [get_bp, hc, generic_factory.obj_ref, hf]
    · exact getD_of_lt _ _ _ hj

theorem check_some (F : generic_factory) (self : Ref) (R : body_part_struct) :
    ∃ log, body_part_struct.check F self R = some log := by
  obtain ⟨id, log0, hc⟩ := convert_bp_some R.token
  exact ⟨_, check_eq F self R id log0 hc⟩

theorem check_from_eq (F : generic_factory) (k : Nat) (l : List body_part_struct) :
    check_from F k l = some (((l.enumFrom k).map
      (fun p => (body_part_struct.check F (Ref.slot p.1) p.2).getD [])).flatten) := by
  induction l generalizing k with
  | nil => rfl
  | cons R rest ih =>
    obtain ⟨log, hl⟩ := check_some F (Ref.slot k) R
    simp [check_from, hl, ih, List.enumFrom_cons]

theorem mandatory_pass_map (F : generic_factory) (ps : List (Nat × bodypart_ids))
    (h : ∀ p ∈ ps, convert_bp (Int.ofNat p.1) = some (p.2, [])) :
    mandatory_pass F (ps.map Prod.fst)
      = some (((ps.map Prod.snd).filter (fun id => !F.is_valid id)).map
          Diag.mandatory_not_loaded) := by
  induction ps with
  | nil => rfl
  | cons p ps ih =>
    have hp := h p (List.mem_cons_self _ _)
    simp only [Int.ofNat_eq_coe] at hp
    have ih2 := ih (fun q hq => h q (List.mem_cons_of_mem _ hq))
    by_cases hv : F.is_valid p.2 = true
    · simp [mandatory_pass, hp, ih2, hv]
    · simp [mandatory_pass, hp, ih2, hv]

/-! ## The claims -/

/-- C1: the two fixed tables round-trip.  For each of the thirteen legacy tokens
`T`, `convert_bp T` succeeds silently and `legacy_id_to_enum` of the upper-cased
identifier is `T`, silently; the sentinel maps to itself; `legacy_id_to_enum` is
injective on its thirteen keys, `convert_bp` on the thirteen tokens, and the
keys and tokens listed are exactly those of the tables. -/
theorem legacy_tables_round_trip :
    (∀ T ∈ legacy_tokens,
      ∃ id, convert_bp T = some (id, []) ∧ legacy_id_to_enum (upper id) = (T, [])) ∧
    (convert_bp num_bp = some ("num_bp", []) ∧ legacy_id_to_enum "NUM_BP" = (num_bp, [])) ∧
    (∀ k1 ∈ legacy_keys, ∀ k2 ∈ legacy_keys,
      (legacy_id_to_enum k1).1 = (legacy_id_to_enum k2).1 → k1 = k2) ∧
    (∀ T1 ∈ legacy_tokens, ∀ T2 ∈ legacy_tokens, convert_bp T1 = convert_bp T2 → T1 = T2) ∧
    legacy_keys = legacy_id_to_enum_body_parts.map Prod.fst ∧
    legacy_tokens = legacy_id_to_enum_body_parts.map Prod.snd ∧
    legacy_tokens = convert_bp_body_parts.map Prod.fst ∧
    legacy_keys = convert_bp_body_parts.map (fun e => upper e.2) ∧
    legacy_keys.length = 13 ∧ legacy_keys.Nodup ∧
    legacy_tokens.length = 13 ∧ legacy_tokens.Nodup := by
  refine ⟨?_, ?_, ?_, ?_, ?_, ?_, ?_, ?_, ?_, ?_, ?_, ?_⟩
  · intro T hT
    have h : ((convert_bp T).map fun r => (r.2, legacy_id_to_enum (upper r.1)))
        = some (([] : List Diag), (T, ([] : List Diag))) := by
      revert T
      decide
    cases hc : convert_bp T with
    | none => rw [hc] at h; cases h
    | some r =>
      rw [hc] at h
      obtain ⟨id, log⟩ := r
      simp only [Option.map_some', Option.some.injEq, Prod.mk.injEq] at h
      obtain ⟨h1, h2⟩ := h
      subst h1
      exact ⟨id, rfl, h2⟩
  all_goals decide

/-- C2: `opposite_side` swaps LEFT and RIGHT, fixes BOTH, and is an involution. -/
theorem opposite_side_involution :
    opposite_side side.LEFT = side.RIGHT ∧
    opposite_side side.RIGHT = side.LEFT ∧
    opposite_side side.BOTH = side.BOTH ∧
    ∀ s : side, opposite_side (opposite_side s) = s := by
  refine ⟨rfl, rfl, rfl, ?_⟩
  intro s
  cases s <;> rfl

/-- C3: `legacy_id_to_enum`, and `get_body_part_token` which is the same function,
returns a result for every string: on each of the thirteen upper-case keys the
token of the table and no message; on every other string, lower-case variants
and the empty string included, the sentinel `num_bp` and one message.  A message
is emitted if and only if the string is not one of the thirteen keys. -/
theorem legacy_id_to_enum_total (s : String) :
    get_body_part_token s = legacy_id_to_enum s ∧
    (s ∈ legacy_keys →
      legacy_id_to_enum_body_parts.lookup s = some (legacy_id_to_enum s).1 ∧
      (legacy_id_to_enum s).2 = []) ∧
    (s ∉ legacy_keys → legacy_id_to_enum s = (num_bp, [Diag.invalid_legacy_id s])) ∧
    ((legacy_id_to_enum s).2 ≠ [] ↔ s ∉ legacy_keys) ∧
    legacy_keys.map legacy_id_to_enum =
      [(bp_torso, []), (bp_head, []), (bp_eyes, []), (bp_mouth, []), (bp_arm_l, []),
       (bp_arm_r, []), (bp_hand_l, []), (bp_hand_r, []), (bp_leg_l, []), (bp_leg_r, []),
       (bp_foot_l, []), (bp_foot_r, []), (num_bp, [])] ∧
    legacy_id_to_enum "arm_l" = (num_bp, [Diag.invalid_legacy_id "arm_l"]) ∧
    legacy_id_to_enum "" = (num_bp, [Diag.invalid_legacy_id ""]) := by
  have hnone := legacy_lookup_none_iff s
  refine ⟨rfl, ?_, ?_, ?_, by decide, by decide, by decide⟩
  · intro hs
    cases hl : legacy_id_to_enum_body_parts.lookup s with
    | none => exact absurd hs (hnone.mp hl)
    | some t => simp [legacy_id_to_enum, hl]
  · intro hs
    simp [legacy_id_to_enum, hnone.mpr hs]
  · cases hl : legacy_id_to_enum_body_parts.lookup s with
    | none => simpa [legacy_id_to_enum, hl] using hnone.mp hl
    | some t =>
      have : ¬ s ∉ legacy_keys := fun h => by rw [hnone.mpr h] at hl; cases hl
      simpa [legacy_id_to_enum, hl] using this

/-- Witness of C3 at the key "ARM_L" and at the lower-case string "arm_l". -/
theorem legacy_id_to_enum_total_witness :
    legacy_id_to_enum "ARM_L" = (bp_arm_l, []) ∧
    legacy_id_to_enum "arm_l" = (num_bp, [Diag.invalid_legacy_id "arm_l"]) :=
  ⟨Prod.ext (Option.some.inj (((legacy_id_to_enum_total "ARM_L").2.1 (by decide)).1.symm.trans
      (by decide))) ((legacy_id_to_enum_total "ARM_L").2.1 (by decide)).2,
   (legacy_id_to_enum_total "arm_l").2.2.1 (by decide)⟩

/-- C4: `convert_bp` returns a result for every integer token: on each of the
thirteen enumerated tokens the identifier of the table and no message; on any
other value the identifier of the sentinel entry, "num_bp", which is `NULL_ID`,
and one message; the lookup of `num_bp` in the error branch finds an entry. -/
theorem convert_bp_total (token : body_part) :
    (convert_bp token).isSome = true ∧
    (token ∈ legacy_tokens →
      ∃ id, convert_bp_body_parts.lookup token = some id ∧ convert_bp token = some (id, [])) ∧
    (token ∉ legacy_tokens → convert_bp token = some (NULL_ID, [Diag.invalid_token token])) ∧
    legacy_tokens.map convert_bp =
      [some ("torso", []), some ("head", []), some ("eyes", []), some ("mouth", []),
       some ("arm_l", []), some ("arm_r", []), some ("hand_l", []), some ("hand_r", []),
       some ("leg_l", []), some ("leg_r", []), some ("foot_l", []), some ("foot_r", []),
       some ("num_bp", [])] ∧
    convert_bp_body_parts.lookup num_bp = some NULL_ID ∧
    NULL_ID = "num_bp" := by
  have hnone := convert_lookup_none_iff token
  have hnull : convert_bp_body_parts.lookup num_bp = some NULL_ID := by decide
  refine ⟨?_, ?_, ?_, by decide, hnull, rfl⟩
  · cases hl : convert_bp_body_parts.lookup token with
    | none => simp [convert_bp, hl, hnull]
    | some id => simp [convert_bp, hl]
  · intro ht
    cases hl : convert_bp_body_parts.lookup token with
    | none => exact absurd ht (hnone.mp hl)
    | some id => exact ⟨id, rfl, by simp [convert_bp, hl]⟩
  · intro ht
    simp [convert_bp, hnone.mpr ht, hnull]

/-- Witness of C4 at the token `bp_arm_l` and at the value 99, outside the table. -/
theorem convert_bp_total_witness :
    (∃ id, convert_bp_body_parts.lookup bp_arm_l = some id ∧
      convert_bp bp_arm_l = some (id, [])) ∧
    convert_bp 99 = some (NULL_ID, [Diag.invalid_token 99]) :=
  ⟨(convert_bp_total bp_arm_l).2.1 (by decide), (convert_bp_total 99).2.2.1 (by decide)⟩

/-- C5: in any registry, if `check()` reports nothing for every stored record,
then two stored records in different slots have different tokens. -/
theorem check_silent_tokens_distinct (F : generic_factory)
    (h : ∀ i (hi : i < F.list.length),
      body_part_struct.check F (Ref.slot i) (F.list.get ⟨i, hi⟩) = some [])
    (i j : Nat) (hi : i < F.list.length) (hj : j < F.list.length) (hij : i ≠ j) :
    (F.list.get ⟨i, hi⟩).token ≠ (F.list.get ⟨j, hj⟩).token := by
  intro htok
  obtain ⟨⟨a, ha, hra⟩, -⟩ := check_silent F (Ref.slot i) _ (h i hi)
  obtain ⟨⟨b, hb, hrb⟩, -⟩ := check_silent F (Ref.slot j) _ (h j hj)
  rw [htok, hb] at ha
  simp only [Option.some.injEq, Prod.mk.injEq, and_true] at ha
  subst ha
  rw [hra] at hrb
  exact hij (Ref.slot.inj hrb)

theorem arm_factory_checks (i : Nat) (hi : i < arm_factory.list.length) :
    body_part_struct.check arm_factory (Ref.slot i) (arm_factory.list.get ⟨i, hi⟩) = some [] := by
  have h2 : i < 2 := hi
  interval_cases i
  · exact (by decide : body_part_struct.check arm_factory (Ref.slot 0)
      (arm_factory.list.get ⟨0, Nat.zero_lt_succ 1⟩) = some [])
  · exact (by decide : body_part_struct.check arm_factory (Ref.slot 1)
      (arm_factory.list.get ⟨1, Nat.lt_succ_self 1⟩) = some [])

/-- Witness of C5: the two arm records pass `check()` and their tokens differ. -/
theorem check_silent_tokens_distinct_witness :
    (arm_factory.list.get ⟨0, by decide⟩).token ≠ (arm_factory.list.get ⟨1, by decide⟩).token :=
  check_silent_tokens_distinct arm_factory arm_factory_checks 0 1 (by decide) (by decide)
    (by decide)

/-- C7: `check()` on a record `R` at address `self` always returns.  Its output is
the output of the token lookup, which is empty for each of the thirteen legacy
tokens, followed by the violations; the number of violations is the number of
the five conditions that fail (duplicate token, unset main, unset opposite,
invalid main, invalid opposite), and there is none if and only if (a) the
record under the token of `R` is `R` itself, (b) when `R.id` is not `NULL_ID`
neither `main_part` nor `opposite_part` is `NULL_ID`, (c) `main_part` and
`opposite_part` are valid. -/
theorem check_reports (F : generic_factory) (self : Ref) (R : body_part_struct) :
    ∃ id log0 log,
      convert_bp R.token = some (id, log0) ∧
      body_part_struct.check F self R = some (log0 ++ log) ∧
      (R.token ∈ legacy_tokens → log0 = []) ∧
      log.length =
        (if F.obj_ref id = self then 0 else 1)
        + (if R.id ≠ NULL_ID ∧ R.main_part = NULL_ID then 1 else 0)
        + (if R.id ≠ NULL_ID ∧ R.opposite_part = NULL_ID then 1 else 0)
        + (if F.is_valid R.main_part = true then 0 else 1)
        + (if F.is_valid R.opposite_part = true then 0 else 1) ∧
      (log = [] ↔
        F.obj_ref id = self ∧
        (R.id ≠ NULL_ID → R.main_part ≠ NULL_ID ∧ R.opposite_part ≠ NULL_ID) ∧
        (F.is_valid R.main_part = true ∧ F.is_valid R.opposite_part = true)) := by
  obtain ⟨id, log0, hc⟩ := convert_bp_some R.token
  refine ⟨id, log0, _, hc, check_eq F self R id log0 hc,
    fun ht => convert_bp_log_nil R.token ht id log0 hc, ?_, ?_⟩
  · rw [(five_messages _ _ _ _ _ _ _ _ _ _).1]
    by_cases h1 : F.obj_ref id = self
    · have h1' : ¬ self ≠ F.obj_ref id := fun h => h h1.symm
      by_cases h4 : F.is_valid R.main_part = true <;>
        by_cases h5 : F.is_valid R.opposite_part = true <;> simp [h1, h1', h4, h5]
    · have h1' : self ≠ F.obj_ref id := fun h => h1 h.symm
      by_cases h4 : F.is_valid R.main_part = true <;>
        by_cases h5 : F.is_valid R.opposite_part = true <;> simp [h1, h1', h4, h5]
  · rw [(five_messages _ _ _ _ _ _ _ _ _ _).2]
    constructor
    · rintro ⟨ha, hb, hc2, hd, he⟩
      exact ⟨(not_not.mp ha).symm, fun hid => ⟨fun hm => hb ⟨hid, hm⟩, fun ho => hc2 ⟨hid, ho⟩⟩,
        not_not.mp hd, not_not.mp he⟩
    · rintro ⟨ha, hb, hd, he⟩
      exact ⟨fun h => h ha.symm, fun h => (hb h.1).1 h.2, fun h => (hb h.1).2 h.2,
        fun h => h hd, fun h => h he⟩

/-- C6, counterexample: the left arm, loaded alone from a complete definition
and finalized, is not the null record and its `opposite_part` "arm_r" is not
valid. -/
theorem lone_arm_opposite_invalid :
    load_bp empty_factory arm_l_json = Except.ok (lone_arm_factory, []) ∧
    ¬ (∀ R ∈ (finalize_all lone_arm_factory).list, R.id ≠ NULL_ID →
        (finalize_all lone_arm_factory).is_valid R.main_part = true ∧
        (finalize_all lone_arm_factory).is_valid R.opposite_part = true) := by
  refine ⟨rfl, ?_⟩
  intro h
  have h2 := (h arm_l_record (by decide) (by decide)).2
  revert h2
  decide

/-- C6, amended: `finalize_all` leaves the registry as it is, and a stored record
of the finalized registry on which `check()` reports nothing has a valid
`main_part` and a valid `opposite_part`. -/
theorem finalized_references_valid (F : generic_factory) (i : Nat)
    (hi : i < (finalize_all F).list.length)
    (h : body_part_struct.check (finalize_all F) (Ref.slot i)
      ((finalize_all F).list.get ⟨i, hi⟩) = some []) :
    finalize_all F = F ∧
    (finalize_all F).is_valid ((finalize_all F).list.get ⟨i, hi⟩).main_part = true ∧
    (finalize_all F).is_valid ((finalize_all F).list.get ⟨i, hi⟩).opposite_part = true := by
  refine ⟨?_, (check_silent _ _ _ h).2.2⟩
  cases F with
  | mk list dummy_obj =>
    have hmap : list.map body_part_struct.finalize = list := by
      have hid : body_part_struct.finalize = id := rfl
      rw [hid, List.map_id]
    simp only [finalize_all, generic_factory.finalize, hmap]

/-- Witness of the amended C6: the left arm in the registry of the two arms. -/
theorem finalized_references_valid_witness :
    finalize_all arm_factory = arm_factory ∧
    (finalize_all arm_factory).is_valid
      ((finalize_all arm_factory).list.get ⟨0, Nat.zero_lt_succ 1⟩).main_part = true ∧
    (finalize_all arm_factory).is_valid
      ((finalize_all arm_factory).list.get ⟨0, Nat.zero_lt_succ 1⟩).opposite_part = true :=
  finalized_references_valid arm_factory 0 (Nat.zero_lt_succ 1) (by decide)

/-- C8: a second definition of "arm_l" that omits "side", loaded over the
populated record, is an error: the side is read without regard to `was_loaded`,
and no reader of that member could keep the first side, since it does not see
it.  The nine members read through `mandatory` do behave as claimed: once the
load completes, each has the new value if the definition gives one and its
first value otherwise. -/
theorem override_load_side :
    arm_l_record.was_loaded = true ∧
    arm_l_record.load rename_json = Except.error (JsonError.missing_member "side") ∧
    (∀ g : JsonObject → String → Except JsonError side,
      ¬ ∃ r1 l1 r2 l2,
        arm_l_record.load_with g rename_json = Except.ok (r1, l1) ∧
        r1.part_side = side.LEFT ∧
        body_part_struct.load_with g { arm_l_record with part_side := side.RIGHT } rename_json
          = Except.ok (r2, l2) ∧
        r2.part_side = side.RIGHT) ∧
    (∀ (self : body_part_struct) (jo : JsonObject) (r : body_part_struct) (log : List Diag),
      self.was_loaded = true → self.load jo = Except.ok (r, log) →
        r.id = (read_string jo "id").getD self.id ∧
        r.name = (read_string jo "name").getD self.name ∧
        r.name_as_heading_singular
          = (read_string jo "heading_singular").getD self.name_as_heading_singular ∧
        r.name_as_heading_multiple
          = (read_string jo "heading_plural").getD self.name_as_heading_multiple ∧
        r.encumb_text = (read_string jo "encumbrance_text").getD self.encumb_text ∧
        r.hit_size = (read_num jo "hit_size").getD self.hit_size ∧
        r.legacy_id = (read_string jo "legacy_id").getD self.legacy_id ∧
        r.main_part = (read_string jo "main_part").getD self.main_part ∧
        r.opposite_part = (read_string jo "opposite_part").getD self.opposite_part ∧
        get_enum_value_side jo "side" = Except.ok r.part_side) ∧
    arm_l_record.load rename_side_json
      = Except.ok ({ arm_l_record with name := "port arm" }, []) := by
  refine ⟨rfl, rfl, ?_, ?_, rfl⟩
  · rintro g ⟨r1, l1, r2, l2, h1, hs1, h2, hs2⟩
    have e1 := (load_with_ok g _ _ _ _ h1).2.2.2.2.2.2.2.2.2.1
    have e2 := (load_with_ok g _ _ _ _ h2).2.2.2.2.2.2.2.2.2.1
    rw [e1, hs1, hs2] at e2
    cases e2
  · intro self jo r log hw h
    obtain ⟨h1, h2, h3, h4, h5, h6, h7, h8, h9, h10, -⟩ :=
      load_with_ok get_enum_value_side self jo r log h
    rw [hw, mandatory_loaded] at h1 h2 h3 h4 h5 h6 h7 h8 h9
    exact ⟨(Except.ok.inj h1).symm, (Except.ok.inj h2).symm, (Except.ok.inj h3).symm,
      (Except.ok.inj h4).symm, (Except.ok.inj h5).symm, (Except.ok.inj h6).symm,
      (Except.ok.inj h7).symm, (Except.ok.inj h8).symm, (Except.ok.inj h9).symm, h10⟩

/-- C9: `opposite_body_part` and `mutate_to_main_part` return, for every token
`t`, the token of the record under the `opposite_part`, respectively the
`main_part`, of the record under `convert_bp t`; and in a registry holding the
two arm records, whatever their other members, the opposite of `bp_arm_l` is
`bp_arm_r` and the opposite of `bp_arm_r` is `bp_arm_l`. -/
theorem body_part_lookups (F : generic_factory) (t : body_part) :
    (∃ id log, convert_bp t = some (id, log) ∧
      opposite_body_part F t = some ((F.obj (F.obj id).opposite_part).token, log) ∧
      mutate_to_main_part F t = some ((F.obj (F.obj id).main_part).token, log)) ∧
    (∀ (r1 r2 d : body_part_struct),
      r1.id = "arm_l" → r1.legacy_id = "ARM_L" → r1.token = (legacy_id_to_enum r1.legacy_id).1 →
      r1.main_part = "arm_l" → r1.opposite_part = "arm_r" →
      r2.id = "arm_r" → r2.legacy_id = "ARM_R" → r2.token = (legacy_id_to_enum r2.legacy_id).1 →
      r2.main_part = "arm_r" → r2.opposite_part = "arm_l" →
      opposite_body_part { list := [r1, r2], dummy_obj := d } bp_arm_l = some (bp_arm_r, []) ∧
      opposite_body_part { list := [r1, r2], dummy_obj := d } bp_arm_r = some (bp_arm_l, [])) := by
  constructor
  · obtain ⟨id, log, hc⟩ := convert_bp_some t
    exact ⟨id, log, hc, by simp [opposite_body_part, get_bp, hc, generic_factory.obj],
      by simp [mutate_to_main_part, get_bp, hc, generic_factory.obj]⟩
  · intro r1 r2 d i1 l1 t1 m1 o1 i2 l2 t2 m2 o2
    have hl : convert_bp bp_arm_l = some ("arm_l", []) := by decide
    have hr : convert_bp bp_arm_r = some ("arm_r", []) := by decide
    have e1 : (legacy_id_to_enum "ARM_L").1 = bp_arm_l := by decide
    have e2 : (legacy_id_to_enum "ARM_R").1 = bp_arm_r := by decide
    rw [l1, e1] at t1
    rw [l2, e2] at t2
    have n1 : ¬ ("arm_l" : String) = "arm_r" := by decide
    have n2 : ¬ ("arm_r" : String) = "arm_l" := by decide
    constructor
    · simp [opposite_body_part, get_bp, hl, generic_factory.obj, generic_factory.obj_ref,
        generic_factory.deref, find_id, i1, i2, o1, n1, t2]
    · simp [opposite_body_part, get_bp, hr, generic_factory.obj, generic_factory.obj_ref,
        generic_factory.deref, find_id, i1, i2, o2, n1, t1]

/-- Witness of C9: the two arm records as loaded from their definitions. -/
theorem body_part_lookups_witness :
    opposite_body_part arm_factory bp_arm_l = some (bp_arm_r, []) ∧
    opposite_body_part arm_factory bp_arm_r = some (bp_arm_l, []) :=
  (body_part_lookups arm_factory 0).2 arm_l_record arm_r_record blank rfl rfl (by decide) rfl rfl
    rfl rfl (by decide) rfl rfl

/-- C10, counterexample: in the registry of the two arm records, loaded from their
definitions and finalized, `check_consistency` does report. -/
theorem arm_check_consistency_reports :
    load_all empty_factory [arm_l_json, arm_r_json] = Except.ok arm_factory ∧
    check_consistency (finalize_all arm_factory) ≠ some [] := by
  refine ⟨rfl, ?_⟩
  decide

/-- C10, amended: in the registry of the two arm records, finalized, the check of
every stored record reports nothing, and `check_consistency` reports exactly
the ten mandatory body parts that are not loaded. -/
theorem arm_check_consistency :
    (finalize_all arm_factory).list = [arm_l_record, arm_r_record] ∧
    body_part_struct.check (finalize_all arm_factory) (Ref.slot 0) arm_l_record = some [] ∧
    body_part_struct.check (finalize_all arm_factory) (Ref.slot 1) arm_r_record = some [] ∧
    (finalize_all arm_factory).check = some [] ∧
    check_consistency (finalize_all arm_factory) =
      some [Diag.mandatory_not_loaded "torso", Diag.mandatory_not_loaded "head",
            Diag.mandatory_not_loaded "eyes", Diag.mandatory_not_loaded "mouth",
            Diag.mandatory_not_loaded "hand_l", Diag.mandatory_not_loaded "hand_r",
            Diag.mandatory_not_loaded "leg_l", Diag.mandatory_not_loaded "leg_r",
            Diag.mandatory_not_loaded "foot_l", Diag.mandatory_not_loaded "foot_r"] := by
  refine ⟨by decide, by decide, by decide, by decide, by decide⟩

/-- C11: whenever `load` completes, the token of the record is
`legacy_id_to_enum` of its legacy id and the messages are those of that lookup;
a completed load of the factory stores the record under its identifier, which
is then valid.  Loading a definition whose legacy id is "BOGUS" completes: the
token is the sentinel `num_bp`, one message is emitted, the record is stored and
its identifier is valid. -/
theorem load_token_of_legacy_id :
    (∀ (self : body_part_struct) (jo : JsonObject) (r : body_part_struct) (log : List Diag),
      self.load jo = Except.ok (r, log) →
        r.token = (legacy_id_to_enum r.legacy_id).1 ∧
        log = (legacy_id_to_enum r.legacy_id).2) ∧
    (∀ (F G : generic_factory) (jo : JsonObject) (log : List Diag),
      load_bp F jo = Except.ok (G, log) →
        ∃ r, r ∈ G.list ∧ read_string jo "id" = some r.id ∧
          G.is_valid r.id = true ∧ G.obj r.id = r ∧
          r.token = (legacy_id_to_enum r.legacy_id).1 ∧
          log = (legacy_id_to_enum r.legacy_id).2) ∧
    read_string bogus_json "legacy_id" = some "BOGUS" ∧
    "BOGUS" ∉ legacy_keys ∧
    load_bp empty_factory bogus_json
      = Except.ok ({ list := [bogus_record], dummy_obj := blank },
          [Diag.invalid_legacy_id "BOGUS"]) ∧
    bogus_record.token = num_bp ∧
    bogus_record ∈ [bogus_record] ∧
    generic_factory.is_valid { list := [bogus_record], dummy_obj := blank } bogus_record.id
      = true := by
  refine ⟨?_, ?_, by decide, by decide, rfl, rfl, by decide, by decide⟩
  · intro self jo r log h
    have h2 := load_with_ok get_enum_value_side self jo r log h
    exact ⟨h2.2.2.2.2.2.2.2.2.2.2.1, h2.2.2.2.2.2.2.2.2.2.2.2.1⟩
  · intro F G jo log h
    obtain ⟨base, r, h0, hid, rfl⟩ := factory_load_ok F G jo log h
    have h2 := load_with_ok get_enum_value_side base jo r log h0
    have h3 := insert_obj F { r with was_loaded := true }
    have h4 := obj_mem _ _ h3.1
    rw [h3.2] at h4
    exact ⟨{ r with was_loaded := true }, h4.1, hid, h3.1, h3.2, h2.2.2.2.2.2.2.2.2.2.2.1,
      h2.2.2.2.2.2.2.2.2.2.2.2.1⟩

/-- Witness of C11: the override of the left arm's name keeps the token of "ARM_L". -/
theorem load_token_of_legacy_id_witness :
    ({ arm_l_record with name := "port arm" } : body_part_struct).token
      = (legacy_id_to_enum "ARM_L").1 :=
  (load_token_of_legacy_id.1 arm_l_record rename_side_json
    { arm_l_record with name := "port arm" } [] rfl).1

/-- C12: parsing a side string succeeds exactly on "left", "right" and "both",
which give LEFT, RIGHT and BOTH; every other string, such as "up", "Left" or
the empty string, is a parse error. -/
theorem side_parse (s : String) :
    string_to_enum_side "left" = Except.ok side.LEFT ∧
    string_to_enum_side "right" = Except.ok side.RIGHT ∧
    string_to_enum_side "both" = Except.ok side.BOTH ∧
    ((∃ v, string_to_enum_side s = Except.ok v) ↔ (s = "left" ∨ s = "right" ∨ s = "both")) ∧
    (¬ (s = "left" ∨ s = "right" ∨ s = "both") →
      string_to_enum_side s = Except.error (JsonError.invalid_enum s)) ∧
    string_to_enum_side "up" = Except.error (JsonError.invalid_enum "up") ∧
    string_to_enum_side "Left" = Except.error (JsonError.invalid_enum "Left") ∧
    string_to_enum_side "" = Except.error (JsonError.invalid_enum "") := by
  refine ⟨rfl, rfl, rfl, ?_, ?_, rfl, rfl, rfl⟩
  · by_cases h1 : s = "left"
    · subst h1
      exact ⟨fun _ => Or.inl rfl, fun _ => ⟨side.LEFT, rfl⟩⟩
    · by_cases h2 : s = "right"
      · subst h2
        exact ⟨fun _ => Or.inr (Or.inl rfl), fun _ => ⟨side.RIGHT, rfl⟩⟩
      · by_cases h3 : s = "both"
        · subst h3
          exact ⟨fun _ => Or.inr (Or.inr rfl), fun _ => ⟨side.BOTH, rfl⟩⟩
        · have hl : side_map.lookup s = none := by
            simp [side_map, List.lookup_eq_none_iff, h1, h2, h3]
          simp [string_to_enum_side, string_to_enum_look_up, hl, h1, h2, h3]
  · intro h
    have h1 : ¬ s = "left" := fun e => h (Or.inl e)
    have h2 : ¬ s = "right" := fun e => h (Or.inr (Or.inl e))
    have h3 : ¬ s = "both" := fun e => h (Or.inr (Or.inr e))
    have hl : side_map.lookup s = none := by
      simp [side_map, List.lookup_eq_none_iff, h1, h2, h3]
    simp [string_to_enum_side, string_to_enum_look_up, hl]

/-- Witness of C12 at the string "up". -/
theorem side_parse_witness :
    string_to_enum_side "up" = Except.error (JsonError.invalid_enum "up") :=
  (side_parse "up").2.2.2.2.1 (by decide)

/-- C13, counterexample: a definition with the identifier "num_bp" loads into the
empty registry; the stored record has the identifier `NULL_ID`, `NULL_ID` is
valid, and `check()` reports nothing for that record although its `main_part`
and `opposite_part` are `NULL_ID`. -/
theorem null_id_loaded :
    ¬ (∀ F, Reachable F → ∀ r ∈ F.list, r.id ≠ NULL_ID) ∧
    load_bp empty_factory null_json = Except.ok (null_factory, []) ∧
    null_record ∈ null_factory.list ∧
    null_record.id = NULL_ID ∧
    null_factory.is_valid NULL_ID = true ∧
    null_record.main_part = NULL_ID ∧
    null_record.opposite_part = NULL_ID ∧
    body_part_struct.check null_factory (Ref.slot 0) null_record = some [] := by
  refine ⟨?_, rfl, by decide, rfl, by decide, rfl, rfl, by decide⟩
  intro h
  exact h null_factory (Reachable.load empty_factory null_factory null_json [] Reachable.empty rfl)
    null_record (by decide) rfl

/-- C13, amended: `NULL_ID` is invalid exactly when no stored record has the
identifier `NULL_ID`; in a registry without such a record, `check()` on any
record reports an invalid main part when its `main_part` is `NULL_ID` and an
invalid opposite part when its `opposite_part` is `NULL_ID`. -/
theorem null_id_invalid_unless_loaded (F : generic_factory)
    (h : ∀ r ∈ F.list, r.id ≠ NULL_ID) (self : Ref) (R : body_part_struct) :
    (∀ G : generic_factory, G.is_valid NULL_ID = false ↔ ∀ r ∈ G.list, r.id ≠ NULL_ID) ∧
    F.is_valid NULL_ID = false ∧
    ∃ log, body_part_struct.check F self R = some log ∧
      (R.main_part = NULL_ID → Diag.invalid_main R.id R.main_part ∈ log) ∧
      (R.opposite_part = NULL_ID → Diag.invalid_opposite R.id R.opposite_part ∈ log) := by
  have hiff : ∀ G : generic_factory,
      G.is_valid NULL_ID = false ↔ ∀ r ∈ G.list, r.id ≠ NULL_ID := by
    intro G
    rw [← find_id_none]
    cases hf : find_id G.list NULL_ID <;> simp [generic_factory.is_valid, hf]
  have hF := (hiff F).mpr h
  obtain ⟨id, log0, hc⟩ := convert_bp_some R.token
  refine ⟨hiff, hF, _, check_eq F self R id log0 hc, ?_, ?_⟩
  · intro hm
    simp [hm, hF]
  · intro ho
    simp [ho, hF]

/-- Witness of the amended C13: the registry of the two arms and a record whose
`main_part` is `NULL_ID`. -/
theorem null_id_invalid_unless_loaded_witness :
    arm_factory.is_valid NULL_ID = false ∧
    ∃ log, body_part_struct.check arm_factory (Ref.slot 0)
        { arm_l_record with main_part := NULL_ID } = some log ∧
      Diag.invalid_main "arm_l" NULL_ID ∈ log :=
  have h := null_id_invalid_unless_loaded arm_factory (by decide) (Ref.slot 0)
    { arm_l_record with main_part := NULL_ID }
  ⟨h.2.1, h.2.2.elim fun log hl => ⟨log, hl.1, hl.2.1 rfl⟩⟩

/-- C14: a stored record whose `check()` reports nothing has the identifier
`convert_bp` gives for its token.  Hence, when every stored record passes
`check()` silently, every stored identifier is one of the thirteen identifiers
of the reverse table, the registry holds at most thirteen records, and for every
legacy token `T` whose identifier is valid the record under `T` has token `T`. -/
theorem check_silent_ids (F : generic_factory) :
    (∀ i (hi : i < F.list.length),
      body_part_struct.check F (Ref.slot i) (F.list.get ⟨i, hi⟩) = some [] →
      convert_bp (F.list.get ⟨i, hi⟩).token = some ((F.list.get ⟨i, hi⟩).id, [])) ∧
    ((∀ i (hi : i < F.list.length),
        body_part_struct.check F (Ref.slot i) (F.list.get ⟨i, hi⟩) = some []) →
      (∀ r ∈ F.list, r.id ∈ convert_bp_body_parts.map Prod.snd) ∧
      F.list.length ≤ 13 ∧
      (∀ T ∈ legacy_tokens, ∃ id, convert_bp T = some (id, []) ∧
        (F.is_valid id = true →
          ∃ ref, get_bp F T = some (ref, []) ∧ (F.deref ref).token = T))) ∧
    (convert_bp_body_parts.map Prod.snd).length = 13 := by
  refine ⟨fun i hi h => (silent_slot F i hi h).1, ?_, rfl⟩
  intro h
  refine ⟨?_, ?_, ?_⟩
  · intro r hr
    obtain ⟨n, hn⟩ := List.get_of_mem hr
    have h1 := (silent_slot F n.1 n.2 (h n.1 n.2)).1
    rw [← hn]
    exact (convert_bp_silent_mem _ _ h1).2
  · have hmem : ∀ n : Fin F.list.length, (F.list.get n).token ∈ legacy_tokens.toFinset := by
      intro n
      have h1 := (silent_slot F n.1 n.2 (h n.1 n.2)).1
      exact List.mem_toFinset.mpr (convert_bp_silent_mem _ _ h1).1
    have hinj : Function.Injective
        (fun n : Fin F.list.length =>
          (⟨(F.list.get n).token, hmem n⟩ : { t // t ∈ legacy_tokens.toFinset })) := by
      intro a b hab
      have ht : (F.list.get a).token = (F.list.get b).token := congrArg Subtype.val hab
      obtain ⟨ca, fa⟩ := silent_slot F a.1 a.2 (h a.1 a.2)
      obtain ⟨cb, fb⟩ := silent_slot F b.1 b.2 (h b.1 b.2)
      have ht2 : (F.list.get ⟨a.1, a.2⟩).token = (F.list.get ⟨b.1, b.2⟩).token := ht
      rw [ht2, cb] at ca
      simp only [Option.some.injEq, Prod.mk.injEq, and_true] at ca
      rw [← ca, fb] at fa
      exact Fin.ext (Option.some.inj fa).symm
    have hcard := Fintype.card_le_of_injective _ hinj
    have h13 : legacy_tokens.toFinset.card = 13 := by decide
    simpa [h13] using hcard
  · intro T hT
    obtain ⟨id, log, hc⟩ := convert_bp_some T
    have hnil := convert_bp_log_nil T hT id log hc
    subst hnil
    refine ⟨id, hc, fun hv => ?_⟩
    obtain ⟨j, hj, hg, hd, ht⟩ := silent_lookup F h T hT id hc hv
    exact ⟨Ref.slot j, hg, by rw [hd]; exact ht⟩

/-- Witness of C14: in the registry of the two arms the record under `bp_arm_r`
has the token `bp_arm_r`. -/
theorem check_silent_ids_witness :
    arm_factory.list.length ≤ 13 ∧
    ∃ id, convert_bp bp_arm_r = some (id, []) ∧
      (arm_factory.is_valid id = true →
        ∃ ref, get_bp arm_factory bp_arm_r = some (ref, []) ∧
          (arm_factory.deref ref).token = bp_arm_r) :=
  have h := (check_silent_ids arm_factory).2.1 arm_factory_checks
  ⟨h.2.1, h.2.2 bp_arm_r (by decide)⟩

/-- C15: the first pass of `check_consistency` visits the twelve tokens
`0 .. num_bp - 1` and reports "Mandatory body part was not loaded" once for each
of their identifiers that is not valid, never for "num_bp" and never for a
valid one; it is silent if and only if all twelve are valid.  The checks of the
stored records follow, slot by slot. -/
theorem check_consistency_mandatory (F : generic_factory) :
    (List.range num_bp.toNat).map (fun i => convert_bp (Int.ofNat i))
      = mandatory_ids.map (fun id => some (id, [])) ∧
    mandatory_ids.length = 12 ∧ mandatory_ids.Nodup ∧ NULL_ID ∉ mandatory_ids ∧
    ∃ pass records,
      mandatory_pass F (List.range num_bp.toNat) = some pass ∧
      F.check = some records ∧
      check_consistency F = some (pass ++ records) ∧
      pass = (mandatory_ids.filter (fun id => !F.is_valid id)).map Diag.mandatory_not_loaded ∧
      (∀ id, pass.count (Diag.mandatory_not_loaded id)
        = if id ∈ mandatory_ids ∧ F.is_valid id = false then 1 else 0) ∧
      pass.count (Diag.mandatory_not_loaded NULL_ID) = 0 ∧
      (pass = [] ↔ ∀ id ∈ mandatory_ids, F.is_valid id = true) ∧
      records = ((F.list.enumFrom 0).map
        (fun p => (body_part_struct.check F (Ref.slot p.1) p.2).getD [])).flatten := by
  have hnd : mandatory_ids.Nodup := by decide
  have hpass : mandatory_pass F (List.range num_bp.toNat)
      = some ((mandatory_ids.filter (fun id => !F.is_valid id)).map
          Diag.mandatory_not_loaded) := by
    have h := mandatory_pass_map F
      [(0, "torso"), (1, "head"), (2, "eyes"), (3, "mouth"), (4, "arm_l"), (5, "arm_r"),
       (6, "hand_l"), (7, "hand_r"), (8, "leg_l"), (9, "leg_r"), (10, "foot_l"),
       (11, "foot_r")] (by decide)
    exact h
  have hcount : ∀ id,
      ((mandatory_ids.filter (fun id => !F.is_valid id)).map Diag.mandatory_not_loaded).count
        (Diag.mandatory_not_loaded id)
        = if id ∈ mandatory_ids ∧ F.is_valid id = false then 1 else 0 := by
    intro id
    have hinj : Function.Injective Diag.mandatory_not_loaded := fun a b hab => by
      cases hab; rfl
    rw [List.count_map_of_injective _ _ hinj,
      List.count_eq_of_nodup (hnd.filter _)]
    simp [List.mem_filter]
  refine ⟨by decide, rfl, hnd, by decide, _, _, hpass, check_from_eq F 0 F.list, ?_, rfl,
    hcount, ?_, ?_, rfl⟩
  · simp [check_consistency, hpass, generic_factory.check, check_from_eq]
  · rw [hcount]
    have hn : NULL_ID ∉ mandatory_ids := by decide
    simp [hn]
  · simp [List.filter_eq_nil_iff]

/-- C16, counterexample: a record with identifier "num_bp" and legacy id "BOGUS"
is loaded and passes `check()` silently; the identifier of the sentinel token is
valid, and the lookup of its legacy id returns `num_bp` but reports an error. -/
theorem null_bogus_round_trip_reports :
    load_bp empty_factory null_bogus_json
      = Except.ok (null_bogus_factory, [Diag.invalid_legacy_id "BOGUS"]) ∧
    Reachable null_bogus_factory ∧
    null_bogus_factory.list = [null_bogus_record] ∧
    body_part_struct.check null_bogus_factory (Ref.slot 0) null_bogus_record = some [] ∧
    num_bp ∈ legacy_tokens ∧
    convert_bp num_bp = some ("num_bp", []) ∧
    null_bogus_factory.is_valid "num_bp" = true ∧
    get_body_part_id null_bogus_factory num_bp = some ("BOGUS", []) ∧
    get_body_part_token "BOGUS" = (num_bp, [Diag.invalid_legacy_id "BOGUS"]) := by
  refine ⟨rfl, ?_, rfl, by decide, by decide, by decide, by decide, by decide, by decide⟩
  exact Reachable.load empty_factory null_bogus_factory null_bogus_json _ Reachable.empty rfl

/-- C16, amended: in a registry reached by loading, where every stored record
passes `check()` silently, for every legacy token `bp` whose identifier is valid
`get_body_part_token` of `get_body_part_id bp` is `bp`; that lookup reports no
error when `bp` is not the sentinel `num_bp`, and when the legacy id found is
one of the thirteen keys. -/
theorem legacy_key_round_trip (F : generic_factory) (hr : Reachable F)
    (hs : ∀ i (hi : i < F.list.length),
      body_part_struct.check F (Ref.slot i) (F.list.get ⟨i, hi⟩) = some [])
    (bp : body_part) (hbp : bp ∈ legacy_tokens) :
    ∃ id, convert_bp bp = some (id, []) ∧
      (F.is_valid id = true →
        ∃ key, get_body_part_id F bp = some (key, []) ∧
          (get_body_part_token key).1 = bp ∧
          (bp ≠ num_bp → (get_body_part_token key).2 = []) ∧
          (key ∈ legacy_keys → (get_body_part_token key).2 = [])) := by
  obtain ⟨id, log, hc⟩ := convert_bp_some bp
  have hnil := convert_bp_log_nil bp hbp id log hc
  subst hnil
  refine ⟨id, hc, fun hv => ?_⟩
  obtain ⟨j, hj, hg, hd, ht⟩ := silent_lookup F hs bp hbp id hc hv
  have htok := reachable_token F hr _ (List.get_mem F.list j hj)
  rw [ht] at htok
  refine ⟨(F.list.get ⟨j, hj⟩).legacy_id, ?_, htok.symm, ?_, ?_⟩
  · simp [get_body_part_id, hg, hd]
  · intro hne
    cases hl : legacy_id_to_enum_body_parts.lookup (F.list.get ⟨j, hj⟩).legacy_id with
    | none =>
      simp only [legacy_id_to_enum, hl] at htok
      exact absurd htok hne
    | some t => simp only [get_body_part_token, legacy_id_to_enum, hl]
  · intro hk
    cases hl : legacy_id_to_enum_body_parts.lookup (F.list.get ⟨j, hj⟩).legacy_id with
    | none => exact absurd hk ((legacy_lookup_none_iff _).mp hl)
    | some t => simp only [get_body_part_token, legacy_id_to_enum, hl]

theorem arm_factory_reachable : Reachable arm_factory :=
  Reachable.load lone_arm_factory arm_factory arm_r_json []
    (Reachable.load empty_factory lone_arm_factory arm_l_json [] Reachable.empty rfl) rfl

/-- Witness of the amended C16: the left arm in the registry of the two arms. -/
theorem legacy_key_round_trip_witness :
    ∃ id, convert_bp bp_arm_l = some (id, []) ∧
      (arm_factory.is_valid id = true →
        ∃ key, get_body_part_id arm_factory bp_arm_l = some (key, []) ∧
          (get_body_part_token key).1 = bp_arm_l ∧
          (bp_arm_l ≠ num_bp → (get_body_part_token key).2 = []) ∧
          (key ∈ legacy_keys → (get_body_part_token key).2 = [])) :=
  legacy_key_round_trip arm_factory arm_factory_reachable arm_factory_checks bp_arm_l (by decide)

/-- C17: for the part `P` selected by the anatomy model, `random_body_part`
returns the token of `P` when `main_parts_only` is false and the token of the
record under `P.main_part` when it is true; and when the record under the token
of `P` is `P` itself, `mutate_to_main_part` of the former is the latter. -/
theorem random_body_part_main (F : generic_factory) (part : Ref) :
    random_body_part F part false = (F.deref part).token ∧
    random_body_part F part true = (F.obj (F.deref part).main_part).token ∧
    ∃ id log, convert_bp (F.deref part).token = some (id, log) ∧
      (F.obj_ref id = part →
        mutate_to_main_part F (random_body_part F part false)
          = some (random_body_part F part true, log)) := by
  obtain ⟨id, log, hc⟩ := convert_bp_some (F.deref part).token
  refine ⟨rfl, rfl, id, log, hc, ?_⟩
  intro hp
  simp [mutate_to_main_part, random_body_part, get_bp, hc, hp]

/-- Witness of C17: the right arm, selected in the registry of the two arms. -/
theorem random_body_part_main_witness :
    random_body_part arm_factory (Ref.slot 1) false = bp_arm_r ∧
    mutate_to_main_part arm_factory (random_body_part arm_factory (Ref.slot 1) false)
      = some (random_body_part arm_factory (Ref.slot 1) true, []) :=
  ⟨(random_body_part_main arm_factory (Ref.slot 1)).1,
   (random_body_part_main arm_factory (Ref.slot 1)).2.2.elim fun id h =>
     h.elim fun log h2 => by
       have hc : convert_bp bp_arm_r = some ("arm_r", []) := by decide
       have h3 : convert_bp bp_arm_r = some (id, log) := h2.1
       rw [hc] at h3
       cases h3
       exact h2.2 (by decide)⟩

end Bodypart
